import Mathlib

/-!
# MDII coordinator panel — verification of the matching / classification layer

A shallow embedding of the record-matching, maturity-classification,
multi-source aggregation, domain-expertise decoding, schema-cache and
display-column logic of the MDII coordinator panel, together with proofs of
the specified properties.

Conventions of the embedding:

* A submission record is modelled as an insertion-ordered association list
  `List (String × String)`; the matching code coerces every value it inspects
  through `String(...)`, so string values suffice.  An absent key is a missing
  entry; JavaScript truthiness of a string value is non-emptiness.
* The JavaScript string primitives used by the code (`trim`, `toLowerCase`,
  `toUpperCase`, `split`, `startsWith`) are re-implemented over character
  lists so that every definition evaluates inside the kernel.  `trim` uses the
  ASCII whitespace characters, which is what the data at hand contains.
* The I/O boundaries (the Kobo fetch proxy and the Excel schema source) are
  out-of-scope collaborators; their per-call outcome is supplied to each
  operation as an oracle `… → Except String …` whose `.error` carries the
  thrown message.  `Promise.all` over an array of wrapped per-source promises
  resolves in input order, which is modelled as `List.map` of the per-source
  function over the source list.
-/

namespace MDII

/-! ### JavaScript string primitives -/

/-- ASCII whitespace, the characters `trim` / `\s` strip in the data at hand. -/
def jsIsWs (c : Char) : Bool :=
  c = ' ' || c = '\t' || c = '\n' || c = '\r'

/-- Models `String.prototype.trim`: drop leading and trailing whitespace. -/
def jsTrim (s : String) : String :=
  ⟨((s.data.dropWhile jsIsWs).reverse.dropWhile jsIsWs).reverse⟩

/-- Lower-casing of one ASCII character. -/
def charLower (c : Char) : Char :=
  if 'A' ≤ c ∧ c ≤ 'Z' then Char.ofNat (c.toNat + 32) else c

/-- Upper-casing of one ASCII character. -/
def charUpper (c : Char) : Char :=
  if 'a' ≤ c ∧ c ≤ 'z' then Char.ofNat (c.toNat - 32) else c

/-- Models `String.prototype.toLowerCase` (ASCII). -/
def jsToLower (s : String) : String := ⟨s.data.map charLower⟩

/-- Helper for `jsSplit`: splits at every occurrence of `sep`. -/
def splitCharAux (sep : Char) : List Char → List Char → List String
  | [], acc => [⟨acc.reverse⟩]
  | c :: cs, acc =>
    if c = sep then ⟨acc.reverse⟩ :: splitCharAux sep cs []
    else splitCharAux sep cs (c :: acc)

/-- Models `String.prototype.split(sep)` for a one-character separator:
`"a/b".split('/') = ["a","b"]`, `"".split('/') = [""]`, `"a/".split('/') = ["a",""]`. -/
def jsSplit (sep : Char) (s : String) : List String := splitCharAux sep s.data []

/-- Helper for `tokenizeWs`: splits at every whitespace character. -/
def splitWsAux : List Char → List Char → List String
  | [], acc => [⟨acc.reverse⟩]
  | c :: cs, acc =>
    if jsIsWs c then ⟨acc.reverse⟩ :: splitWsAux cs []
    else splitWsAux cs (c :: acc)

/-- Models `String.prototype.split(/\s+/)` as applied by the code: splitting at single
whitespace characters and discarding the empty pieces produced by runs; on the
already-trimmed strings the code feeds in, this agrees with the regex split. -/
def tokenizeWs (s : String) : List String :=
  (splitWsAux s.data []).filter (· ≠ "")

/-- Models `String.prototype.startsWith`. -/
def jsStartsWith (p s : String) : Bool := p.data.isPrefixOf s.data

/-- Whether `needle` occurs as a contiguous substring of `haystack`; used to
state that an error message does not mention a given value. -/
def containsSub (needle : List Char) : List Char → Bool
  | [] => needle.isEmpty
  | c :: cs => needle.isPrefixOf (c :: cs) || containsSub needle cs

/-- Models `String(s).trim().toLowerCase()`, the normalization applied to both sides of
every case-insensitive identifier comparison. -/
def normId (s : String) : String := jsToLower (jsTrim s)

/-! ### Records and field access -/

/-- A submission row as the matching code observes it: an insertion-ordered
key-value object with string values. -/
abbrev Record := List (String × String)

/-- Models `String(record[k] || "")`: the value of field `k`, or `""` when the field
is absent or holds the empty (falsy) string. -/
def fieldOr (r : Record) (k : String) : String := (List.lookup k r).getD ("")

/-- The value of the first candidate field that is present and non-empty
(JavaScript-truthy), `""` when none is: models both the `if/else if` chains over
candidate tool-id fields in `getSurveyData` and the
`record[a] || record[b] || record[c] || ""` chains in `checkOverallStatus`. -/
def firstNonEmpty (r : Record) : List String → String
  | [] => ""
  | f :: fs => if fieldOr r f ≠ "" then fieldOr r f else firstNonEmpty r fs

/-- JavaScript object / `Map` key assignment: an existing key keeps its
position and gets the new value, a new key is appended at the end. -/
def setKey {α : Type} (m : List (String × α)) (k : String) (v : α) :
    List (String × α) :=
  match m with
  | [] => [(k, v)]
  | (k₀, v₀) :: rest =>
    if k₀ = k then (k₀, v) :: rest else (k₀, v₀) :: setKey rest k v

/-! ### Maturity classification (`getToolMaturity`, kobo-api client) -/

/-- The canonical maturity level, `"advanced" | "early"` in the source. -/
inductive Maturity where
  | advanced
  | early
deriving DecidableEq, Repr

def TOOL_ID_FIELD : String := "ID"

def MATURITY_FIELD : String := "tool_maturity"

/-- The message of the error thrown on an unrecognized maturity value
(`throw new Error(`Invalid maturity level. `)`) — note that it is a constant:
the offending value is not interpolated. -/
def invalidMaturityMsg : String := "Invalid maturity level. "

/-- The message `Tool ID "${toolId}" not found.` -/
def toolNotFoundMsg (toolId : String) : String :=
  "Tool ID \"" ++ toolId ++ "\" not found."

/-- The `catch` block of `getToolMaturity` re-wraps every failure message as
`Failed to fetch data - ${message}`. -/
def fetchWrapMsg (e : String) : String := "Failed to fetch data - " ++ e

/-- Whether a master record matches the (already normalized) search id:
`String(record[TOOL_ID_FIELD] || "").trim().toLowerCase() === searchToolId`. -/
def masterMatches (searchToolId : String) (r : Record) : Bool :=
  normId (fieldOr r TOOL_ID_FIELD) = searchToolId

/-- Classification of one master record's maturity field:
`String(record[MATURITY_FIELD] || "").toLowerCase().trim()` followed by the
synonym dispatch of the current revision
(`advanced | advance | advance_stage → advanced`, `early | early_stage → early`). -/
def classifyRecordMaturity (r : Record) : Except String Maturity :=
  let m := jsTrim (jsToLower (fieldOr r MATURITY_FIELD))
  if m = "advanced" ∨ m = "advance" ∨ m = "advance_stage" then .ok .advanced
  else if m = "early" ∨ m = "early_stage" then .ok .early
  else .error invalidMaturityMsg

/-- The in-order scan of `getToolMaturity` over the fetched master records:
first matching record wins, its maturity field is classified; no match is the
tool-not-found failure. -/
def getToolMaturityScan (records : List Record) (toolId : String) :
    Except String Maturity :=
  match records.find? (masterMatches (normId toolId)) with
  | some r => classifyRecordMaturity r
  | none => .error (toolNotFoundMsg toolId)

/-- Models `getToolMaturity`, with the outcome of the main-form fetch supplied as
`fetched` and the enclosing try/catch that prefixes every failure message. -/
def getToolMaturity (fetched : Except String (List Record)) (toolId : String) :
    Except String Maturity :=
  match fetched with
  | .error e => .error (fetchWrapMsg e)
  | .ok records =>
    match getToolMaturityScan records toolId with
    | .ok m => .ok m
    | .error e => .error (fetchWrapMsg e)

/-! ### Survey-form matching and aggregation (`getSurveyData`, kobo-api client) -/

/-- The ordered candidate tool-id fields probed by `getSurveyData`'s
`if/else if` chain. -/
def SURVEY_ID_FIELDS : List String :=
  ["group_toolid/Q_13110000", "group_requester/Q_13110000",
   "group_individualinfo/Q_13110000", "group_intro/Q_13110000", "Q_13110000"]

/-- The tool id extracted from a survey record: the first truthy candidate
field's value, trimmed and lower-cased (`""` when no candidate is populated). -/
def surveyRecordToolId (r : Record) : String :=
  normId (firstNonEmpty r SURVEY_ID_FIELDS)

/-- Models `recordToolId === searchToolId` where
`searchToolId = String(toolId).trim().toLowerCase()`. -/
def surveyMatches (toolId : String) (r : Record) : Bool :=
  surveyRecordToolId r = normId toolId

/-- The matching loop of `getSurveyData` over one form's results. -/
def surveyMatchingRecords (results : List Record) (toolId : String) :
    List Record :=
  results.filter (surveyMatches toolId)

/-- Models `key.split('/').pop() || key`: the last `/`-separated segment of a key,
falling back to the whole key when that segment is empty (falsy). -/
def lastSeg (key : String) : String :=
  match (jsSplit '/' key).getLast? with
  | some s => if s = "" then key else s
  | none => key

/-- Field-name normalization of one matched record (`normalizedData` in
`getSurveyData`): every key is replaced by its last `/`-segment and assigned
into a fresh object in enumeration order, so a later key overwrites an earlier
key with the same last segment. -/
def normalizeRecord (r : Record) : Record :=
  r.foldl (fun acc kv => setKey acc (lastSeg kv.1) kv.2) []

/-- A question label as delivered to the data table (`QuestionLabel`).
The optional `choices` array is modelled as a list of `(name, label)` pairs,
empty when absent. -/
structure QuestionLabel where
  name : String
  label : String
  type : String
  choices : List (String × String) := []
deriving DecidableEq, Repr

/-- One survey source's aggregation result (`KoboFormData`). -/
structure KoboFormData where
  userType : String
  maturityLevel : Maturity
  data : List Record
  formId : String
  questions : List QuestionLabel
  error : Option String := none
deriving DecidableEq, Repr

def USERTYPE3_FORMS : Maturity → String
  | .advanced => "aFfhFi5vpsierwc3b5SNvc"
  | .early => "aCAhpbKYdsMbnGcWo4yR42"

def USERTYPE4_FORMS : Maturity → String
  | .advanced => "aU5LwrZps9u7Yt7obeShjv"
  | .early => "aKhnEosysRHsrUKxanCSKc"

/-- Models `ExcelFormParser.getFormType`. -/
def getFormType (userType : String) (m : Maturity) : String :=
  if userType = "usertype3" then
    if m = .advanced then "ut3_advance" else "ut3_early"
  else
    if m = .advanced then "ut4_advance" else "ut4_early"

/-- The two survey sources assembled by `getSurveyData`
(`formsToFetch`: user type, form id, Excel form type). -/
def formsToFetch (m : Maturity) : List (String × String × String) :=
  [("usertype3", USERTYPE3_FORMS m, getFormType ("usertype3") m),
   ("usertype4", USERTYPE4_FORMS m, getFormType ("usertype4") m)]

/-- The wrapped per-source work of `getSurveyData`: fetch the form (`fetch` is
the outcome oracle of `fetchData`), select the matching records, load and
prefix-normalize the question labels (`getLabels` is the outcome oracle of
`excelParser.getQuestionLabels`), prefix-normalize the matched records.  The
outer `catch` turns a fetch failure into a result with empty `data` and the
failure message in `error`; the inner Excel `catch` returns the (raw) matched
records with the Excel failure message in `error`. -/
def fetchSurveySource (fetch : String → Except String (List Record))
    (getLabels : String → Except String (List QuestionLabel))
    (toolId : String) (m : Maturity) (src : String × String × String) :
    KoboFormData :=
  match fetch src.2.1 with
  | .error e =>
    { userType := src.1, maturityLevel := m, data := [], formId := src.2.1,
      questions := [], error := some e }
  | .ok results =>
    let matchingRecords := surveyMatchingRecords results toolId
    match getLabels src.2.2 with
    | .error e =>
      { userType := src.1, maturityLevel := m, data := matchingRecords,
        formId := src.2.1, questions := [],
        error := some ("Failed to load question labels from Excel: " ++ e) }
    | .ok qs =>
      { userType := src.1, maturityLevel := m,
        data := matchingRecords.map normalizeRecord, formId := src.2.1,
        questions := qs.map (fun q => { q with name := lastSeg q.name }),
        error := none }

/-- Models `getSurveyData`: one independent wrapped fetch per source;
`Promise.all` settles them all and keeps input order. -/
def getSurveyData (fetch : String → Except String (List Record))
    (getLabels : String → Except String (List QuestionLabel))
    (toolId : String) (m : Maturity) : List KoboFormData :=
  (formsToFetch m).map (fetchSurveySource fetch getLabels toolId m)

/-! ### Innovator and domain-expert status (`checkOverallStatus`, dashboard) -/

/-- The `INNOVATOR_FORMS` table, in `Object.entries` enumeration order. -/
def INNOVATOR_FORMS : List (String × String) :=
  [("leadership", "afiUqEoYaGMS8RaygTPuAR"),
   ("technical", "aqxEbPgQTMQQqe42ZFW2cc"),
   ("projectManager", "auq274db5dfNGasdH4bWdU")]

/-- All innovator forms store the tool id under this one field. -/
def INNOVATOR_ID_FIELD : String := "group_requester/Q_13110000"

/-- The innovator-form record filter:
`String(record[INNOVATOR_ID_FIELD] || "").trim() === String(toolId).trim()` —
trimmed on both sides but case-sensitive. -/
def innovatorMatches (toolId : String) (r : Record) : Bool :=
  jsTrim (fieldOr r INNOVATOR_ID_FIELD) = jsTrim toolId

def innovatorMatchingRecords (results : List Record) (toolId : String) :
    List Record :=
  results.filter (innovatorMatches toolId)

/-- Models `role === 'projectManager' ? 'Project Manager'
  : role.charAt(0).toUpperCase() + role.slice(1)`. -/
def roleLabel (role : String) : String :=
  if role = "projectManager" then "Project Manager"
  else
    match role.data with
    | [] => ""
    | c :: cs => ⟨charUpper c :: cs⟩

/-- One innovator role's status row (`InnovatorStatus`). -/
structure InnovatorStatus where
  role : String
  formId : String
  submitted : Bool
  submissionCount : Nat
  error : Option String := none
deriving DecidableEq, Repr

/-- The wrapped per-form innovator check of `checkOverallStatus`: a fetch
failure is captured as a not-submitted row carrying the failure message. -/
def checkInnovator (fetch : String → Except String (List Record))
    (toolId : String) (src : String × String) : InnovatorStatus :=
  match fetch src.2 with
  | .error e =>
    { role := roleLabel src.1, formId := src.2, submitted := false,
      submissionCount := 0, error := some e }
  | .ok results =>
    let matchingRecords := innovatorMatchingRecords results toolId
    { role := roleLabel src.1, formId := src.2,
      submitted := decide (0 < matchingRecords.length),
      submissionCount := matchingRecords.length, error := none }

/-- The three innovator checks; `Promise.all` keeps the form order. -/
def checkInnovators (fetch : String → Except String (List Record))
    (toolId : String) : List InnovatorStatus :=
  INNOVATOR_FORMS.map (checkInnovator fetch toolId)

def DOMAIN_EXPERT_FORMS : Maturity → String
  | .advanced => "ap6dUEDwX7KUsKLFZUD7kb"
  | .early => "au52CRd6ATzV7S36WcAdDu"

/-- The ordered candidate tool-id fields of the domain-expert filter
(`record[a] || record[b] || record[c] || ""`). -/
def DOMAIN_EXPERT_ID_FIELDS : List String :=
  ["group_intro/Q_13110000", "group_requester/Q_13110000", "Q_13110000"]

/-- The domain-expert record filter — trimmed on both sides, case-sensitive. -/
def domainExpertMatches (toolId : String) (r : Record) : Bool :=
  jsTrim (firstNonEmpty r DOMAIN_EXPERT_ID_FIELDS) = jsTrim toolId

def domainExpertMatchingRecords (results : List Record) (toolId : String) :
    List Record :=
  results.filter (domainExpertMatches toolId)

/-- The `DOMAIN_CODE_MAPPING` table: expertise code → full category name. -/
def DOMAIN_CODE_MAPPING : String → Option String
  | "ce" => some ("Country Expert")
  | "country_expert" => some ("Country Expert")
  | "data" => some ("Data")
  | "econ" => some ("Economics")
  | "gesi" => some ("Gender Equity and Social Inclusion")
  | "hcd" => some ("Human-Centered Design")
  | "ict" => some ("Information and Communication Technologies")
  | _ => none

/-- The `DOMAIN_CATEGORIES` table: the expected categories per maturity level; the
`early` list omits `Human-Centered Design`. -/
def DOMAIN_CATEGORIES : Maturity → List String
  | .advanced =>
    ["Country Expert", "Data", "Economics",
     "Gender Equity and Social Inclusion", "Human-Centered Design",
     "Information and Communication Technologies"]
  | .early =>
    ["Country Expert", "Data", "Economics",
     "Gender Equity and Social Inclusion",
     "Information and Communication Technologies"]

/-- The ordered candidate expertise fields
(`record["group_individual/Q_22300000"] || record["group_intro_001/Q_22300000"] || ""`). -/
def EXPERTISE_FIELDS : List String :=
  ["group_individual/Q_22300000", "group_intro_001/Q_22300000"]

/-- One record's expertise string, trimmed and lower-cased. -/
def expertiseString (r : Record) : String :=
  jsToLower (jsTrim (firstNonEmpty r EXPERTISE_FIELDS))

/-- The expertise codes of one record: the whitespace-split tokens of its
expertise string, guarded by the `if (expertiseString)` emptiness check. -/
def recordExpertiseCodes (r : Record) : List String :=
  let e := expertiseString r
  if e = "" then [] else tokenizeWs e

/-- One `categorySubmissions.set(fullName, (get(fullName) || 0) + 1)` step;
a code outside the mapping table leaves the tally unchanged. -/
def tallyCode (m : List (String × Nat)) (code : String) : List (String × Nat) :=
  match DOMAIN_CODE_MAPPING code with
  | some fullName => setKey m fullName ((List.lookup fullName m).getD 0 + 1)
  | none => m

/-- The `categorySubmissions` map after processing every matched record. -/
def categorySubmissions (records : List Record) : List (String × Nat) :=
  records.foldl (fun m r => (recordExpertiseCodes r).foldl tallyCode m) []

/-- One domain category's status row (`DomainExpertStatus`). -/
structure DomainExpertStatus where
  category : String
  maturityLevel : Maturity
  submitted : Bool
  submissionCount : Nat
deriving DecidableEq, Repr

/-- The per-category cross-reference of `checkOverallStatus`:
`submitted: categorySubmissions.has(c) && categorySubmissions.get(c)! > 0`,
`submissionCount: categorySubmissions.get(c) || 0`. -/
def domainExpertStatuses (records : List Record) (m : Maturity) :
    List DomainExpertStatus :=
  let subs := categorySubmissions records
  (DOMAIN_CATEGORIES m).map (fun category =>
    { category := category, maturityLevel := m,
      submitted :=
        (match List.lookup category subs with
         | some n => decide (0 < n)
         | none => false),
      submissionCount := (List.lookup category subs).getD 0 })

/-! ### Schema cache (`ExcelFormParser.loadFormSchema` / `clearCache`) -/

/-- One parsed XLSForm survey row (`QuestionMapping`). -/
structure QuestionMapping where
  name : String
  label : String
  type : String
  choices : List (String × String) := []
  listName : Option String := none
deriving DecidableEq, Repr

/-- A parsed form schema (`FormQuestions`): the survey rows and the per-list
choice table. -/
structure FormQuestions where
  survey : List QuestionMapping
  choices : List (String × List (String × String))
deriving DecidableEq, Repr

/-- The parser's `formCache`, keyed by form type. -/
abbrev SchemaCache := List (String × FormQuestions)

/-- Models `ExcelFormParser.loadFormSchema` with the fetch + XLSX-parse boundary
supplied as the oracle `load`: a cache hit returns the cached value without
invoking `load`; a miss invokes `load` and caches only a successful result.
Returns (outcome, cache afterwards, whether `load` was invoked). -/
def loadFormSchema (load : String → Except String FormQuestions)
    (cache : SchemaCache) (formType : String) :
    Except String FormQuestions × SchemaCache × Bool :=
  match List.lookup formType cache with
  | some cached => (.ok cached, cache, false)
  | none =>
    match load formType with
    | .ok result => (.ok result, setKey cache formType result, true)
    | .error e => (.error e, cache, true)

/-- Models `ExcelFormParser.clearCache`. -/
def clearCache (_cache : SchemaCache) : SchemaCache := []

/-! ### Display columns (data-table.tsx) -/

/-- One display column (`DisplayColumn`): the original field key for data
access, plus label / type / choices resolved from the matching question. -/
structure DisplayColumn where
  key : String
  label : String
  type : String
  choices : List (String × String)
deriving DecidableEq, Repr

/-- The field names shown, in first-record JSON order, with the metadata
fields filtered out. -/
def orderedFields (firstRecord : Record) : List String :=
  (firstRecord.map Prod.fst).filter (fun key =>
    !jsStartsWith ("_") key && !jsStartsWith ("formhub/") key
      && !jsStartsWith ("meta/") key && key ≠ "__version__")

/-- Models `questions.find(q => q.name === normalizedField || q.name === fieldName)`
where `normalizedField` strips the group prefix of the record's field name. -/
def findQuestion (questions : List QuestionLabel) (fieldName : String) :
    Option QuestionLabel :=
  questions.find? (fun q => q.name = lastSeg fieldName || q.name = fieldName)

/-- Display-column construction: one column per ordered field that has a
matching question, fields without one are skipped.  The subsequent
tool-id-first `sort` only permutes the column list, so it is not modelled:
which columns exist, and how often, is unaffected. -/
def displayColumns (fields : List String) (questions : List QuestionLabel) :
    List DisplayColumn :=
  fields.filterMap (fun fieldName =>
    match findQuestion questions fieldName with
    | none => none
    | some q =>
      some { key := fieldName,
             label := if q.label = "" then "Unknown Question" else q.label,
             type := if q.type = "" then "text" else q.type,
             choices := q.choices })

/-! ### Shared lemmas about the association-list and fold primitives -/

theorem lookup_cons_eq {α : Type} (k₁ k : String) (v₁ : α) (tl : List (String × α)) :
    List.lookup k ((k₁, v₁) :: tl) = if k = k₁ then some v₁ else List.lookup k tl := by
  cases hb : k == k₁ with
  | true => simp [List.lookup, hb, if_pos (eq_of_beq hb)]
  | false => simp [List.lookup, hb, if_neg (ne_of_beq_false hb)]

theorem lookup_setKey {α : Type} (m : List (String × α)) (k₀ k : String) (v : α) :
    List.lookup k (setKey m k₀ v) = if k₀ = k then some v else List.lookup k m := by
  induction m with
  | nil =>
    by_cases h : k₀ = k
    · simp [setKey, lookup_cons_eq, h]
    · simp [setKey, lookup_cons_eq, h, Ne.symm h]
  | cons hd tl ih =>
    obtain ⟨k₁, v₁⟩ := hd
    by_cases h1 : k₁ = k₀
    · subst h1
      by_cases h2 : k = k₁
      · simp [setKey, lookup_cons_eq, h2]
      · simp [setKey, lookup_cons_eq, h2, Ne.symm h2, ih]
    · by_cases h2 : k = k₁
      · subst h2
        simp [setKey, h1, lookup_cons_eq, Ne.symm h1]
      · simp [setKey, h1, lookup_cons_eq, h2, ih]

theorem mem_keys_setKey {α : Type} (m : List (String × α)) (k₀ k : String) (v : α) :
    k ∈ (setKey m k₀ v).map Prod.fst ↔ k = k₀ ∨ k ∈ m.map Prod.fst := by
  induction m with
  | nil => simp [setKey]
  | cons hd tl ih =>
    obtain ⟨k₁, v₁⟩ := hd
    by_cases h1 : k₁ = k₀
    · subst h1
      simp [setKey]
    · simp [setKey, h1, ih]
      tauto

/-- A prefix of candidate fields that are all absent or empty is skipped. -/
theorem firstNonEmpty_append_empty (r : Record) (fs₁ fs₂ : List String)
    (h : ∀ g ∈ fs₁, fieldOr r g = "") :
    firstNonEmpty r (fs₁ ++ fs₂) = firstNonEmpty r fs₂ := by
  induction fs₁ with
  | nil => rfl
  | cons f fs ih =>
    have hf : fieldOr r f = "" := h f (by simp)
    simp only [List.cons_append, firstNonEmpty, hf]
    simp only [ne_eq, not_true_eq_false, if_false]
    exact ih fun g hg => h g (by simp [hg])

/-- When every candidate field of a record is absent or empty, the extracted
identifier is the empty string. -/
theorem firstNonEmpty_eq_empty (r : Record) (fs : List String)
    (h : ∀ g ∈ fs, fieldOr r g = "") :
    firstNonEmpty r fs = "" := by
  simpa using firstNonEmpty_append_empty r fs [] h

/-- Key membership after folding prefix-normalized assignments over a record. -/
theorem mem_keys_foldl_setKey (r : Record) (acc : List (String × String))
    (k : String) :
    k ∈ (r.foldl (fun a kv => setKey a (lastSeg kv.1) kv.2) acc).map Prod.fst ↔
      (∃ kv ∈ r, lastSeg kv.1 = k) ∨ k ∈ acc.map Prod.fst := by
  induction r generalizing acc with
  | nil => simp
  | cons kv rest ih =>
    simp only [List.foldl_cons, ih, mem_keys_setKey, List.mem_cons]
    constructor
    · rintro (⟨p, hp, hps⟩ | h | h)
      · exact Or.inl ⟨p, Or.inr hp, hps⟩
      · exact Or.inl ⟨kv, Or.inl rfl, h.symm⟩
      · exact Or.inr h
    · rintro (⟨p, hp | hp, hps⟩ | h)
      · subst hp
        exact Or.inr (Or.inl hps.symm)
      · exact Or.inl ⟨p, hp, hps⟩
      · exact Or.inr (Or.inr h)

/-- Lookup after folding prefix-normalized assignments over a record: the
surviving value under `k` is the one of the last enumerated original key whose
last segment is `k`. -/
theorem lookup_foldl_setKey (r : Record) (acc : List (String × String))
    (k : String) :
    List.lookup k (r.foldl (fun a kv => setKey a (lastSeg kv.1) kv.2) acc) =
      ((r.reverse.find? fun kv => lastSeg kv.1 = k).map Prod.snd).or
        (List.lookup k acc) := by
  induction r generalizing acc with
  | nil => simp
  | cons kv rest ih =>
    simp only [List.foldl_cons, List.reverse_cons, List.find?_append, ih]
    cases hf : rest.reverse.find? (fun kv => decide (lastSeg kv.1 = k)) with
    | some p => simp [hf]
    | none =>
      by_cases h : lastSeg kv.1 = k <;>
        simp [hf, lookup_setKey, h, List.find?]

/-- The lookup characterization of `normalizeRecord`. -/
theorem lookup_normalizeRecord (r : Record) (k : String) :
    List.lookup k (normalizeRecord r) =
      (r.reverse.find? fun kv => lastSeg kv.1 = k).map Prod.snd := by
  simpa [normalizeRecord] using lookup_foldl_setKey r [] k

/-- The key-set characterization of `normalizeRecord`. -/
theorem mem_keys_normalizeRecord (r : Record) (k : String) :
    k ∈ (normalizeRecord r).map Prod.fst ↔ ∃ kv ∈ r, lastSeg kv.1 = k := by
  simpa [normalizeRecord] using mem_keys_foldl_setKey r [] k

/-- The count a category holds in a tally map (`get(c) || 0`). -/
def countOf (m : List (String × Nat)) (c : String) : Nat :=
  (List.lookup c m).getD 0

theorem countOf_tallyCode (m : List (String × Nat)) (code c : String) :
    countOf (tallyCode m code) c =
      countOf m c + (if DOMAIN_CODE_MAPPING code = some c then 1 else 0) := by
  unfold tallyCode
  cases hm : DOMAIN_CODE_MAPPING code with
  | none => simp
  | some fullName =>
    by_cases h : fullName = c
    · subst h
      simp [countOf, lookup_setKey]
    · simp [countOf, lookup_setKey, h]

theorem countOf_foldl_tallyCode (codes : List String) (m : List (String × Nat))
    (c : String) :
    countOf (codes.foldl tallyCode m) c =
      countOf m c + codes.countP (fun code => DOMAIN_CODE_MAPPING code = some c) := by
  induction codes generalizing m with
  | nil => simp
  | cons code rest ih =>
    simp only [List.foldl_cons, ih, countOf_tallyCode, List.countP_cons]
    by_cases h : DOMAIN_CODE_MAPPING code = some c
    · simp [h]
      omega
    · simp [h]

theorem countOf_foldl_records (records : List Record) (m : List (String × Nat))
    (c : String) :
    countOf (records.foldl
        (fun m r => (recordExpertiseCodes r).foldl tallyCode m) m) c =
      countOf m c +
        (records.map (fun r => (recordExpertiseCodes r).countP
          (fun code => DOMAIN_CODE_MAPPING code = some c))).sum := by
  induction records generalizing m with
  | nil => simp
  | cons r rest ih =>
    simp only [List.foldl_cons, ih, countOf_foldl_tallyCode, List.map_cons,
      List.sum_cons]
    omega

/-- The final tally of a category equals the number of recognized tokens
mapping to it across all matched records. -/
theorem countOf_categorySubmissions (records : List Record) (c : String) :
    countOf (categorySubmissions records) c =
      (records.map (fun r => (recordExpertiseCodes r).countP
        (fun code => DOMAIN_CODE_MAPPING code = some c))).sum := by
  simpa [categorySubmissions, countOf] using countOf_foldl_records records [] c

theorem countP_key_displayColumns (fields : List String)
    (qs : List QuestionLabel) (f : String) :
    (displayColumns fields qs).countP (fun col => col.key = f) =
      if (findQuestion qs f).isSome then fields.countP (fun g => g = f) else 0 := by
  induction fields with
  | nil => simp [displayColumns]
  | cons g rest ih =>
    simp only [displayColumns, List.filterMap_cons] at ih ⊢
    by_cases h : g = f
    · subst h
      cases hg : findQuestion qs g with
      | none => simp [hg, ih, List.countP_cons]
      | some q => simp [hg, ih, List.countP_cons]
    · cases hg : findQuestion qs g with
      | none => simp [hg, ih, List.countP_cons, h]
      | some q => simp [hg, ih, List.countP_cons, h]

theorem displayColumns_key_label (fields : List String)
    (qs : List QuestionLabel) (col : DisplayColumn)
    (h : col ∈ displayColumns fields qs) :
    col.key ∈ fields ∧ ∃ q, findQuestion qs col.key = some q ∧
      col.label = (if q.label = "" then "Unknown Question" else q.label) := by
  simp only [displayColumns, List.mem_filterMap] at h
  obtain ⟨a, ha, hcol⟩ := h
  cases hq : findQuestion qs a with
  | none => rw [hq] at hcol; simp at hcol
  | some q =>
    rw [hq] at hcol
    simp only [Option.some.injEq] at hcol
    subst hcol
    exact ⟨ha, q, hq, rfl⟩

/-- Lower-casing a string yields the empty string only for the empty string. -/
theorem jsToLower_eq_empty_iff (s : String) : jsToLower s = "" ↔ s = "" := by
  constructor <;> intro h
  · cases s with
    | mk l =>
      have hd : l.map charLower = [] := congrArg String.data h
      have : l = [] := by simpa using hd
      simp [this]
  · subst h
    rfl

/-! ### Claim theorems -/

/-- Claim C2: Maturity classification scans the master records in order and
classifies exactly the first record whose normalized identifier equals the
normalized input identifier, independently of all later records; the
lowercased-and-trimmed maturity value is mapped through the synonym table
(`advanced`/`advance`/`advance_stage` ↦ advanced, `early`/`early_stage` ↦
early); when no record's identifier matches, the scan fails with the
tool-not-found error. -/
theorem maturity_classification_spec :
    (∀ (pre post : List Record) (r : Record) (toolId : String),
        (∀ r' ∈ pre, normId (fieldOr r' TOOL_ID_FIELD) ≠ normId toolId) →
        normId (fieldOr r TOOL_ID_FIELD) = normId toolId →
        getToolMaturityScan (pre ++ r :: post) toolId = classifyRecordMaturity r) ∧
    (∀ r : Record,
        (jsTrim (jsToLower (fieldOr r MATURITY_FIELD)) ∈
            (["advanced", "advance", "advance_stage"] : List String) →
          classifyRecordMaturity r = .ok .advanced) ∧
        (jsTrim (jsToLower (fieldOr r MATURITY_FIELD)) ∈
            (["early", "early_stage"] : List String) →
          classifyRecordMaturity r = .ok .early)) ∧
    (∀ (records : List Record) (toolId : String),
        (∀ r ∈ records, normId (fieldOr r TOOL_ID_FIELD) ≠ normId toolId) →
        getToolMaturityScan records toolId = .error (toolNotFoundMsg toolId)) := by
  refine ⟨?_, ?_, ?_⟩
  · intro pre post r toolId hpre hr
    unfold getToolMaturityScan
    rw [List.find?_append]
    have h1 : pre.find? (masterMatches (normId toolId)) = none := by
      rw [List.find?_eq_none]
      intro x hx
      simp only [masterMatches, decide_eq_true_eq]
      exact hpre x hx
    rw [h1, Option.none_or, List.find?_cons_of_pos _ (by simp [masterMatches, hr])]
  · intro r
    constructor <;> intro h <;> unfold classifyRecordMaturity <;>
      simp only [List.mem_cons, List.not_mem_nil, or_false] at h
    · rcases h with h | h | h <;> simp [h]
    · rcases h with h | h <;> simp [h]
  · intro records toolId hall
    unfold getToolMaturityScan
    have h1 : records.find? (masterMatches (normId toolId)) = none := by
      rw [List.find?_eq_none]
      intro x hx
      simp only [masterMatches, decide_eq_true_eq]
      exact hall x hx
    rw [h1]

/-- Witness for C2: in a two-record master set whose first record does not
match, the classification is that of the second record, whose maturity value
`"Advance_Stage "` is the advanced synonym; the comparison is trimmed and
case-insensitive on both sides. -/
theorem maturity_classification_spec_witness :
    getToolMaturityScan
        [[("ID", "other"), ("tool_maturity", "early")],
         [("ID", " T1 "), ("tool_maturity", "Advance_Stage ")]] " t1"
      = .ok .advanced := by
  have h := maturity_classification_spec.1
      [[("ID", "other"), ("tool_maturity", "early")]] []
      [("ID", " T1 "), ("tool_maturity", "Advance_Stage ")] " t1"
      (by decide) (by decide)
  exact h.trans (by rfl)

/-- Claim C8, code evaluated at the failing input: evaluation of the classifier at a matched record whose maturity
value (`"unknown"`) is not in the synonym table: the surfaced error message is
the constant `Failed to fetch data - Invalid maturity level. `, which does not
contain the offending raw value, and it is identical for a different
unrecognized value — the raw value is not preserved in the error. -/
theorem invalid_maturity_error_message_constant :
    getToolMaturity (.ok [[("ID", "t1"), ("tool_maturity", "unknown")]]) "t1"
        = .error ("Failed to fetch data - Invalid maturity level. ") ∧
    containsSub ("unknown".data)
        ("Failed to fetch data - Invalid maturity level. ".data) = false ∧
    getToolMaturity (.ok [[("ID", "t1"), ("tool_maturity", "unknown")]]) "t1"
      = getToolMaturity
          (.ok [[("ID", "t1"), ("tool_maturity", "some other bad value")]]) "t1" := by
  refine ⟨by rfl, by rfl, by rfl⟩

/-- Claim C3, counterexample: the record value `" ABC "` matches the target
`"abc"` under the survey-form matcher, but not under the innovator-form or
domain-expert matchers, which compare case-sensitively after trimming. -/
theorem match_case_insensitivity_counterexample :
    surveyMatchingRecords [[("group_toolid/Q_13110000", " ABC ")]] "abc"
        = [[("group_toolid/Q_13110000", " ABC ")]] ∧
    innovatorMatchingRecords [[("group_requester/Q_13110000", " ABC ")]] "abc"
        = [] ∧
    domainExpertMatchingRecords [[("group_intro/Q_13110000", " ABC ")]] "abc"
        = [] := by
  refine ⟨by rfl, by rfl, by rfl⟩

/-- Claim C3, amended: survey-form matching compares the extracted record value
and the target case-insensitively after trimming both sides; innovator-form
and domain-expert matching trim both sides but compare case-sensitively. -/
theorem match_normalization_per_source :
    (∀ (v t : String), v ≠ "" →
        (surveyMatches t [("group_toolid/Q_13110000", v)] = true ↔
          normId v = normId t)) ∧
    (∀ (v t : String),
        (innovatorMatches t [("group_requester/Q_13110000", v)] = true ↔
          jsTrim v = jsTrim t)) ∧
    (∀ (v t : String), v ≠ "" →
        (domainExpertMatches t [("group_intro/Q_13110000", v)] = true ↔
          jsTrim v = jsTrim t)) := by
  refine ⟨?_, ?_, ?_⟩
  · intro v t hv
    simp [surveyMatches, surveyRecordToolId, SURVEY_ID_FIELDS, firstNonEmpty,
      fieldOr, lookup_cons_eq, hv]
  · intro v t
    simp [innovatorMatches, INNOVATOR_ID_FIELD, fieldOr, lookup_cons_eq]
  · intro v t hv
    simp [domainExpertMatches, DOMAIN_EXPERT_ID_FIELDS, firstNonEmpty,
      fieldOr, lookup_cons_eq, hv]

/-- Witness for the amended C3: `" ABC "` matches `"abc"` on the survey side;
`"ABC "` matches `" ABC"` (same letters, different surrounding whitespace) on
the innovator side. -/
theorem match_normalization_per_source_witness :
    surveyMatches ("abc") [("group_toolid/Q_13110000", " ABC ")] = true ∧
    innovatorMatches (" ABC") [("group_requester/Q_13110000", "ABC ")] = true :=
  ⟨(match_normalization_per_source.1 (" ABC ") ("abc") (by decide)).mpr (by decide),
   (match_normalization_per_source.2.1 ("ABC ") (" ABC")).mpr (by decide)⟩

/-- Claim C4: candidate identifier fields are probed in order and the first
present-and-non-empty one wins: a prefix of absent-or-empty candidates is
skipped, and the first populated candidate's value is the one compared against
the target — instantiated for the survey chain (first candidate empty, second
populated) and the domain-expert chain. -/
theorem candidate_field_fallback :
    (∀ (r : Record) (fs₁ fs₂ : List String) (f : String),
        (∀ g ∈ fs₁, fieldOr r g = "") → fieldOr r f ≠ "" →
        firstNonEmpty r (fs₁ ++ f :: fs₂) = fieldOr r f) ∧
    (∀ (r : Record) (t : String),
        fieldOr r ("group_toolid/Q_13110000") = "" →
        fieldOr r ("group_requester/Q_13110000") ≠ "" →
        (surveyMatches t r = true ↔
          normId (fieldOr r ("group_requester/Q_13110000")) = normId t)) ∧
    (∀ (r : Record) (t : String),
        fieldOr r ("group_intro/Q_13110000") = "" →
        fieldOr r ("group_requester/Q_13110000") ≠ "" →
        (domainExpertMatches t r = true ↔
          jsTrim (fieldOr r ("group_requester/Q_13110000")) = jsTrim t)) := by
  refine ⟨?_, ?_, ?_⟩
  · intro r fs₁ fs₂ f h1 h2
    rw [firstNonEmpty_append_empty r fs₁ (f :: fs₂) h1]
    simp [firstNonEmpty, h2]
  · intro r t h1 h2
    simp [surveyMatches, surveyRecordToolId, SURVEY_ID_FIELDS, firstNonEmpty,
      h1, h2]
  · intro r t h1 h2
    simp [domainExpertMatches, DOMAIN_EXPERT_ID_FIELDS, firstNonEmpty, h1, h2]

/-- Witness for C4: a survey record storing its tool id only under the second
candidate field (`group_requester/Q_13110000`) still matches. -/
theorem candidate_field_fallback_witness :
    surveyMatches ("tool7") [("group_requester/Q_13110000", "TOOL7")] = true ∧
    firstNonEmpty [("group_requester/Q_13110000", "TOOL7")]
        (["group_toolid/Q_13110000"] ++ "group_requester/Q_13110000" :: [])
      = "TOOL7" :=
  ⟨(candidate_field_fallback.2.1 [("group_requester/Q_13110000", "TOOL7")]
      "tool7" (by decide) (by decide)).mpr (by decide),
   (candidate_field_fallback.1 [("group_requester/Q_13110000", "TOOL7")]
        ["group_toolid/Q_13110000"] [] "group_requester/Q_13110000"
        (by decide) (by decide)).trans (by decide)⟩

/-- Claim C9, counterexample: a record with no resolvable identifier field *is*
included when the target identifier trims to the empty string: its extracted
identifier is `""`, which equals the normalized empty target, under all three
matchers. -/
theorem no_id_record_empty_target_counterexample :
    ([] : Record) ∈ surveyMatchingRecords [([] : Record)] " " ∧
    ([] : Record) ∈ innovatorMatchingRecords [([] : Record)] " " ∧
    ([] : Record) ∈ domainExpertMatchingRecords [([] : Record)] " " := by
  refine ⟨by decide, by decide, by decide⟩

/-- Claim C9, amended: a record on which no candidate identifier field is
present and non-empty never matches a target that trims to a non-empty string
— under the survey, innovator and domain-expert matchers alike; when the
target trims to the empty string, however, such a record does match. -/
theorem no_id_record_match_spec :
    (∀ (t : String) (r : Record),
        (∀ f ∈ SURVEY_ID_FIELDS, fieldOr r f = "") → jsTrim t ≠ "" →
        surveyMatches t r = false) ∧
    (∀ (t : String) (r : Record),
        fieldOr r INNOVATOR_ID_FIELD = "" → jsTrim t ≠ "" →
        innovatorMatches t r = false) ∧
    (∀ (t : String) (r : Record),
        (∀ f ∈ DOMAIN_EXPERT_ID_FIELDS, fieldOr r f = "") → jsTrim t ≠ "" →
        domainExpertMatches t r = false) ∧
    (∀ (t : String) (r : Record),
        (∀ f ∈ SURVEY_ID_FIELDS, fieldOr r f = "") → jsTrim t = "" →
        surveyMatches t r = true) := by
  refine ⟨?_, ?_, ?_, ?_⟩
  · intro t r hr ht
    have h0 : firstNonEmpty r SURVEY_ID_FIELDS = "" := firstNonEmpty_eq_empty r _ hr
    have h1 : normId t ≠ "" := fun hc => ht ((jsToLower_eq_empty_iff _).mp hc)
    simp only [surveyMatches, surveyRecordToolId, h0, decide_eq_false_iff_not]
    intro hc
    exact h1 hc.symm
  · intro t r hr ht
    simp only [innovatorMatches, hr, decide_eq_false_iff_not]
    intro hc
    exact ht hc.symm
  · intro t r hr ht
    have h0 : firstNonEmpty r DOMAIN_EXPERT_ID_FIELDS = "" :=
      firstNonEmpty_eq_empty r _ hr
    simp only [domainExpertMatches, h0, decide_eq_false_iff_not]
    intro hc
    exact ht hc.symm
  · intro t r hr ht
    have h0 : firstNonEmpty r SURVEY_ID_FIELDS = "" := firstNonEmpty_eq_empty r _ hr
    have h1 : normId t = "" := by rw [normId, ht]; rfl
    have h2 : normId ("") = "" := rfl
    simp [surveyMatches, surveyRecordToolId, h0, h1, h2]

/-- Witness for the amended C9: the empty record does not match `"t1"`, but
does match the all-whitespace target `" "`. -/
theorem no_id_record_match_spec_witness :
    surveyMatches ("t1") ([] : Record) = false ∧
    surveyMatches (" ") ([] : Record) = true :=
  ⟨no_id_record_match_spec.1 ("t1") [] (by decide) (by decide),
   no_id_record_match_spec.2.2.2 (" ") [] (by decide) (by decide)⟩

/-- Claim C5: expertise decoding: a token outside the code table is silently
ignored; each category's final tally is the number of recognized tokens mapping
to it across all matched records (each record contributing the whitespace
tokens of its lowercased-and-trimmed expertise string); the status rows list
exactly the maturity-specific expected categories, each carrying its tally as
`submissionCount` and `submitted` exactly when that tally is positive — so an
expected category with no recognized token is reported not-submitted with count
0; and the `early` expected list omits `Human-Centered Design` while the
`advanced` list contains it. -/
theorem expertise_decoding_spec :
    (∀ (m : List (String × Nat)) (code : String),
        DOMAIN_CODE_MAPPING code = none → tallyCode m code = m) ∧
    (∀ (records : List Record) (c : String),
        countOf (categorySubmissions records) c =
          (records.map (fun r => (recordExpertiseCodes r).countP
            (fun code => DOMAIN_CODE_MAPPING code = some c))).sum) ∧
    (∀ (records : List Record) (m : Maturity),
        (domainExpertStatuses records m).map (fun st => st.category)
            = DOMAIN_CATEGORIES m ∧
        ∀ st ∈ domainExpertStatuses records m,
          st.submissionCount = countOf (categorySubmissions records) st.category ∧
          (st.submitted = true ↔
            0 < countOf (categorySubmissions records) st.category)) ∧
    ("Human-Centered Design" ∈ DOMAIN_CATEGORIES .advanced ∧
     "Human-Centered Design" ∉ DOMAIN_CATEGORIES .early) := by
  refine ⟨?_, countOf_categorySubmissions, ?_, by decide, by decide⟩
  · intro m code h
    simp [tallyCode, h]
  · intro records m
    constructor
    · simp only [domainExpertStatuses, List.map_map]
      exact (List.map_congr_left fun c _ => rfl).trans (List.map_id _)
    · intro st hst
      simp only [domainExpertStatuses, List.mem_map] at hst
      obtain ⟨c, hc, rfl⟩ := hst
      cases hl : List.lookup c (categorySubmissions records) with
      | some n => simp [countOf, hl]
      | none => simp [countOf, hl]

/-- Witness for C5, the spec's worked example: expertise string
`"ce data xyz"` yields one `Country Expert` token (`xyz` ignored, as is the
tally step on an unknown code) and no `Human-Centered Design` token. -/
theorem expertise_decoding_spec_witness :
    tallyCode [] "xyz" = [] ∧
    countOf (categorySubmissions
        [[("group_individual/Q_22300000", "ce data xyz")]]) "Country Expert" = 1 ∧
    countOf (categorySubmissions
        [[("group_individual/Q_22300000", "ce data xyz")]])
      "Human-Centered Design" = 0 := by
  refine ⟨expertise_decoding_spec.1 [] ("xyz") (by rfl), ?_, ?_⟩
  · rw [expertise_decoding_spec.2.1]
    decide
  · rw [expertise_decoding_spec.2.1]
    decide

/-- Claim C6: the schema cache: when a load for a category returns a result
`r` leaving cache `c₁`, loading the same category again returns the same
result `r`, leaves the cache unchanged, and does not invoke the underlying
loader; a load never removes or changes any existing cache entry (so only the
explicit clear operation invalidates), and the clear operation empties the
cache. -/
theorem schema_cache_spec :
    (∀ (load : String → Except String FormQuestions) (cache : SchemaCache)
        (formType : String) (r : FormQuestions) (c₁ : SchemaCache) (b : Bool),
        loadFormSchema load cache formType = (.ok r, c₁, b) →
        loadFormSchema load c₁ formType = (.ok r, c₁, false)) ∧
    (∀ (load : String → Except String FormQuestions) (cache : SchemaCache)
        (formType other : String) (q : FormQuestions),
        List.lookup other cache = some q →
        List.lookup other (loadFormSchema load cache formType).2.1 = some q) ∧
    (∀ cache : SchemaCache, clearCache cache = []) := by
  refine ⟨?_, ?_, fun _ => rfl⟩
  · intro load cache ft r c₁ b h
    unfold loadFormSchema at h ⊢
    cases hl : List.lookup ft cache with
    | some cached =>
      rw [hl] at h
      simp only [Prod.mk.injEq, Except.ok.injEq] at h
      obtain ⟨h1, h2, h3⟩ := h
      subst h1
      subst h2
      rw [hl]
    | none =>
      rw [hl] at h
      cases hload : load ft with
      | ok result =>
        rw [hload] at h
        simp only [Prod.mk.injEq, Except.ok.injEq] at h
        obtain ⟨h1, h2, h3⟩ := h
        subst h1
        subst h2
        simp [lookup_setKey]
      | error e =>
        rw [hload] at h
        simp at h
  · intro load cache ft other q hq
    unfold loadFormSchema
    cases hl : List.lookup ft cache with
    | some cached => simpa using hq
    | none =>
      cases hload : load ft with
      | ok result =>
        have hne : ft ≠ other := by
          intro he
          rw [he, hq] at hl
          cases hl
        simp only []
        rw [lookup_setKey, if_neg hne]
        exact hq
      | error e => simpa using hq

/-- Witness for C6: with a loader that always succeeds, the second load of
`ut3_early` from the cache produced by the first load returns the cached
value, leaves the cache unchanged, and does not invoke the loader. -/
theorem schema_cache_spec_witness :
    loadFormSchema (fun _ => .ok ⟨[], []⟩) [("ut3_early", ⟨[], []⟩)] "ut3_early"
      = (.ok ⟨[], []⟩, [("ut3_early", ⟨[], []⟩)], false) :=
  schema_cache_spec.1 (fun _ => .ok ⟨[], []⟩) [] "ut3_early" ⟨[], []⟩
    [("ut3_early", ⟨[], []⟩)] true (by rfl)

/-- Claim C7: when a field name occurs exactly once among the displayed fields
and the schema names its bare (prefix-stripped) last segment, the display
columns contain exactly one column for that field — the record's value is
neither dropped nor duplicated — and that column is labelled by the question
found for the field. -/
theorem display_prefix_normalization_spec (fields : List String)
    (qs : List QuestionLabel) (f : String)
    (honce : fields.countP (fun g => g = f) = 1)
    (hq : ∃ q ∈ qs, q.name = lastSeg f) :
    (displayColumns fields qs).countP (fun col => col.key = f) = 1 ∧
    ∀ col ∈ displayColumns fields qs, col.key = f →
      ∃ q, findQuestion qs f = some q ∧
        col.label = (if q.label = "" then "Unknown Question" else q.label) := by
  have hsome : (findQuestion qs f).isSome := by
    rw [findQuestion, List.find?_isSome]
    obtain ⟨q, hqmem, hqn⟩ := hq
    exact ⟨q, hqmem, by simp [hqn]⟩
  constructor
  · rw [countP_key_displayColumns, if_pos hsome, honce]
  · intro col hcol hkey
    obtain ⟨-, q, hfind, hlabel⟩ := displayColumns_key_label fields qs col hcol
    rw [hkey] at hfind
    exact ⟨q, hfind, hlabel⟩

/-- Witness for C7: the record key `group_toolid/Q_1` displays exactly once
under the schema entry named `Q_1`. -/
theorem display_prefix_normalization_spec_witness :
    (displayColumns ["group_toolid/Q_1"]
        [{ name := "Q_1", label := "Which tool?", type := "text" }]).countP
      (fun col => col.key = "group_toolid/Q_1") = 1 :=
  (display_prefix_normalization_spec ["group_toolid/Q_1"]
      [{ name := "Q_1", label := "Which tool?", type := "text" }]
      "group_toolid/Q_1" (by decide)
      ⟨{ name := "Q_1", label := "Which tool?", type := "text" },
        by decide, by decide⟩).1

/-- Claim C10: on the survey success path the returned records are the matched
records with every key replaced by its last `/`-segment: a key is present in a
normalized record exactly when some original key has it as last segment; the
value surviving under a normalized key is that of the *last* enumerated
original key with that last segment (a later key overwrites an earlier one);
and the number of returned records equals the number of matched records. -/
theorem record_key_normalization_spec :
    (∀ (r : Record) (k : String),
        k ∈ (normalizeRecord r).map Prod.fst ↔ ∃ kv ∈ r, lastSeg kv.1 = k) ∧
    (∀ (r : Record) (k : String),
        List.lookup k (normalizeRecord r) =
          (r.reverse.find? fun kv => lastSeg kv.1 = k).map Prod.snd) ∧
    (∀ (fetch : String → Except String (List Record))
        (getLabels : String → Except String (List QuestionLabel))
        (toolId : String) (m : Maturity) (src : String × String × String)
        (results : List Record) (qs : List QuestionLabel),
        fetch src.2.1 = .ok results → getLabels src.2.2 = .ok qs →
        (fetchSurveySource fetch getLabels toolId m src).data
            = (surveyMatchingRecords results toolId).map normalizeRecord ∧
        (fetchSurveySource fetch getLabels toolId m src).data.length
            = (surveyMatchingRecords results toolId).length) := by
  refine ⟨mem_keys_normalizeRecord, lookup_normalizeRecord, ?_⟩
  intro fetch getLabels toolId m src results qs hf hg
  simp [fetchSurveySource, hf, hg]

/-- Witness for C10: two distinct keys `group_a/Q_1` and `group_b/Q_1` share
the last segment `Q_1`; the later value survives and the earlier is gone. -/
theorem record_key_normalization_spec_witness :
    List.lookup ("Q_1")
        (normalizeRecord [("group_a/Q_1", "first"), ("group_b/Q_1", "second")])
      = some "second" ∧
    "Q_1" ∈ (normalizeRecord
        [("group_a/Q_1", "first"), ("group_b/Q_1", "second")]).map Prod.fst := by
  constructor
  · rw [record_key_normalization_spec.2.1]
    decide
  · rw [record_key_normalization_spec.1]
    decide

/-- The per-source result of `getSurveyData` always describes its own source,
whatever the oracles return. -/
theorem fetchSurveySource_proj (fetch : String → Except String (List Record))
    (getLabels : String → Except String (List QuestionLabel))
    (toolId : String) (m : Maturity) (src : String × String × String) :
    (fetchSurveySource fetch getLabels toolId m src).userType = src.1 ∧
    (fetchSurveySource fetch getLabels toolId m src).formId = src.2.1 ∧
    (fetchSurveySource fetch getLabels toolId m src).maturityLevel = m := by
  unfold fetchSurveySource
  cases fetch src.2.1 with
  | error e => exact ⟨rfl, rfl, rfl⟩
  | ok results =>
    cases getLabels src.2.2 with
    | error e => exact ⟨rfl, rfl, rfl⟩
    | ok qs => exact ⟨rfl, rfl, rfl⟩

/-- A failed fetch of one survey source is captured as that source's result
with empty records and the failure message. -/
theorem fetchSurveySource_error (fetch : String → Except String (List Record))
    (getLabels : String → Except String (List QuestionLabel))
    (toolId : String) (m : Maturity) (src : String × String × String)
    (e : String) (hf : fetch src.2.1 = .error e) :
    fetchSurveySource fetch getLabels toolId m src =
      { userType := src.1, maturityLevel := m, data := [], formId := src.2.1,
        questions := [], error := some e } := by
  unfold fetchSurveySource
  rw [hf]

/-- A failed fetch of one innovator form is captured as a not-submitted status
row carrying the failure message. -/
theorem checkInnovator_error (fetch : String → Except String (List Record))
    (toolId : String) (src : String × String) (e : String)
    (hf : fetch src.2 = .error e) :
    checkInnovator fetch toolId src =
      { role := roleLabel src.1, formId := src.2, submitted := false,
        submissionCount := 0, error := some e } := by
  unfold checkInnovator
  rw [hf]

/-- Claim C1: both aggregations return exactly one result per supplied source,
in source order: the i-th survey result carries the i-th source's user type and
form id, a fetch failure of that source yields empty matched records and the
failure message in `error` (while every other index still carries its own
source's result), and a successful fetch-and-schema-load yields the matched
records with no error; likewise the i-th innovator status describes the i-th
innovator form, a fetch failure yields a not-submitted status carrying the
error, and a successful fetch yields the matched-record count with no error. -/
theorem aggregation_per_source_spec :
    (∀ (fetch : String → Except String (List Record))
        (getLabels : String → Except String (List QuestionLabel))
        (toolId : String) (m : Maturity),
        (getSurveyData fetch getLabels toolId m).length
            = (formsToFetch m).length ∧
        ∀ (i : Nat) (src : String × String × String),
          (formsToFetch m)[i]? = some src →
          ∃ res, (getSurveyData fetch getLabels toolId m)[i]? = some res ∧
            res.userType = src.1 ∧ res.formId = src.2.1 ∧
            res.maturityLevel = m ∧
            (∀ e, fetch src.2.1 = .error e →
              res.data = [] ∧ res.error = some e) ∧
            (∀ results qs, fetch src.2.1 = .ok results →
              getLabels src.2.2 = .ok qs →
              res.data = (surveyMatchingRecords results toolId).map normalizeRecord ∧
              res.error = none)) ∧
    (∀ (fetch : String → Except String (List Record)) (toolId : String),
        (checkInnovators fetch toolId).length = INNOVATOR_FORMS.length ∧
        ∀ (i : Nat) (src : String × String),
          INNOVATOR_FORMS[i]? = some src →
          ∃ st, (checkInnovators fetch toolId)[i]? = some st ∧
            st.role = roleLabel src.1 ∧ st.formId = src.2 ∧
            (∀ e, fetch src.2 = .error e →
              st.submitted = false ∧ st.submissionCount = 0 ∧
              st.error = some e) ∧
            (∀ results, fetch src.2 = .ok results →
              st.submissionCount
                  = (innovatorMatchingRecords results toolId).length ∧
              st.error = none)) := by
  constructor
  · intro fetch getLabels toolId m
    refine ⟨by simp [getSurveyData], ?_⟩
    intro i src hsrc
    refine ⟨fetchSurveySource fetch getLabels toolId m src, ?_,
      (fetchSurveySource_proj fetch getLabels toolId m src).1,
      (fetchSurveySource_proj fetch getLabels toolId m src).2.1,
      (fetchSurveySource_proj fetch getLabels toolId m src).2.2, ?_, ?_⟩
    · simp [getSurveyData, List.getElem?_map, hsrc]
    · intro e hf
      rw [fetchSurveySource_error fetch getLabels toolId m src e hf]
      exact ⟨rfl, rfl⟩
    · intro results qs hf hg
      unfold fetchSurveySource
      rw [hf, hg]
      exact ⟨rfl, rfl⟩
  · intro fetch toolId
    refine ⟨by simp [checkInnovators], ?_⟩
    intro i src hsrc
    refine ⟨checkInnovator fetch toolId src, ?_, ?_, ?_, ?_, ?_⟩
    · simp [checkInnovators, List.getElem?_map, hsrc]
    · unfold checkInnovator
      cases fetch src.2 with
      | error e => rfl
      | ok results => rfl
    · unfold checkInnovator
      cases fetch src.2 with
      | error e => rfl
      | ok results => rfl
    · intro e hf
      rw [checkInnovator_error fetch toolId src e hf]
      exact ⟨rfl, rfl, rfl⟩
    · intro results hf
      unfold checkInnovator
      rw [hf]
      exact ⟨rfl, rfl⟩

/-- A fetch oracle for the C1 witness: the technical innovator form fails, every
other form returns one record holding tool id `t1`. -/
def witnessFetchOracle : String → Except String (List Record) :=
  fun formId =>
    if formId = "aqxEbPgQTMQQqe42ZFW2cc" then .error ("HTTP 500")
    else .ok [[("group_requester/Q_13110000", "t1")]]

/-- Witness for C1, the spec's scenario: three innovator sources where the
second always fails still produce three results in input order, with the
second carrying the error and not submitted, and the first populated; the
survey aggregation likewise returns one result per source. -/
theorem aggregation_per_source_spec_witness :
    (checkInnovators witnessFetchOracle ("t1")).length = 3 ∧
    ((checkInnovators witnessFetchOracle ("t1"))[1]?).map
        (fun st => (st.submitted, st.submissionCount, st.error))
      = some (false, 0, some "HTTP 500") ∧
    ((checkInnovators witnessFetchOracle ("t1"))[0]?).map
        (fun st => (st.submissionCount, st.error)) = some (1, none) ∧
    (getSurveyData witnessFetchOracle (fun _ => .ok []) ("t1") .advanced).length
      = 2 := by
  obtain ⟨hlen, hidx⟩ := aggregation_per_source_spec.2 witnessFetchOracle ("t1")
  refine ⟨by simpa using hlen, ?_, ?_, ?_⟩
  · obtain ⟨st, hst, hrole, hfid, hfail, hok⟩ :=
      hidx 1 ("technical", "aqxEbPgQTMQQqe42ZFW2cc") (by rfl)
    obtain ⟨h1, h2, h3⟩ := hfail ("HTTP 500") (by rfl)
    rw [hst]
    simp [h1, h2, h3]
  · obtain ⟨st, hst, hrole, hfid, hfail, hok⟩ :=
      hidx 0 ("leadership", "afiUqEoYaGMS8RaygTPuAR") (by rfl)
    obtain ⟨h1, h2⟩ := hok [[("group_requester/Q_13110000", "t1")]] (by rfl)
    rw [hst]
    simp [h1, h2]
    decide
  · simpa using
      (aggregation_per_source_spec.1 witnessFetchOracle
        (fun _ => .ok []) ("t1") .advanced).1

end MDII
